import Mathlib

/-
Verification of the record-mapper base layer in src/template/template_api.py
(class API_Template).  The Python class is shallowly embedded below:

  * Python runtime values that can appear in rows / attributes are the
    inductive `Value`; `Value.vDatetime s` and `Value.vDecimal s` carry the
    Python str() rendering of the datetime / Decimal object as payload.
  * Python dicts keyed by strings are association lists with unique keys,
    written with `dictSet` (replace-in-place-or-append, matching dict
    assignment) and `dictErase` (del).
  * A Python exception escaping to the caller is an `Except.error` carrying
    a `PyErr`; normal returns are `Except.ok`.
  * The class attributes DB / SCHEMA / TABLE / PRIMARY_KEY form a `Config`;
    the database collaborator is a function from table name to its rows, and
    `db.where(table, **kv)` is `dbWhere` (filter by column equality).
  * `datetime.datetime.utcnow()` is not modelled as a clock: the str()
    rendering of the current time is an explicit `now : String` argument to
    the functions that stamp it.
  * The gateway outcome of `DB.insert` / `DB.update` is an explicit
    `Except PyErr _` argument; the transaction traffic an operation performs
    is returned as a `List TxEvent` trace.
-/

namespace TemplateAPI

/-- A Python value as it can occur in a storage row or an instance
attribute.  `vDatetime` and `vDecimal` carry the `str()` rendering of the
underlying object. -/
inductive Value where
  | vNone : Value
  | vBool : Bool → Value
  | vInt : Int → Value
  | vStr : String → Value
  | vDatetime : String → Value
  | vDecimal : String → Value
  deriving DecidableEq, Repr

/-- Python truthiness of a `Value`.  `None` is falsy, numbers are truthy iff
nonzero, strings iff nonempty; datetime objects are always truthy; a Decimal
is truthy iff it is nonzero, i.e. iff its rendering has a nonzero digit. -/
def pyTruthy : Value → Bool
  | Value.vNone => false
  | Value.vBool b => b
  | Value.vInt n => n != 0
  | Value.vStr s => s != ""
  | Value.vDatetime _ => true
  | Value.vDecimal s => s.any (fun c => c.isDigit && c != '0')

/-- Python `str()` of a `Value`. -/
def pyStr : Value → String
  | Value.vNone => "None"
  | Value.vBool b => if b then "True" else "False"
  | Value.vInt n => toString n
  | Value.vStr s => s
  | Value.vDatetime s => s
  | Value.vDecimal s => s

/-- The Python exceptions the embedded code can raise or re-raise. -/
inductive PyErr where
  | typeError : PyErr
  | attributeError : PyErr
  | keyError : String → PyErr
  | nameError : String → PyErr
  | gatewayError : String → PyErr
  deriving DecidableEq, Repr

/-- A storage row: dict from storage-column name to value. -/
abbrev Row := List (String × Value)

/-- A schema: ordered dict from logical field name to storage-column name. -/
abbrev Schema := List (String × String)

/-- A string-keyed Python dict of values. -/
abbrev Dict := List (String × Value)

/-- Python dict assignment `d[k] = v`: replace the entry in place if the key
exists, else append. -/
def dictSet : Dict → String → Value → Dict
  | [], k, v => [(k, v)]
  | p :: t, k, v => if p.1 = k then (k, v) :: t else p :: dictSet t k v

/-- Python dict lookup `d[k]` as an `Option`: the value at the (unique) key
`k`, if present. -/
def alistGet (k : String) : List (String × β) → Option β
  | [] => none
  | p :: t => if p.1 = k then some p.2 else alistGet k t

/-- Key membership `k in d` for a string-keyed assoc list. -/
def containsKey : List (String × β) → String → Bool
  | [], _ => false
  | p :: t, k => if p.1 = k then true else containsKey t k

/-- Removal of the (unique) entry with key `k`; identity when absent. -/
def dictErase : Dict → String → Dict
  | [], _ => []
  | p :: t, k => if p.1 = k then t else p :: dictErase t k

/-- Python `del d[k]`: raises `KeyError(k)` when the key is absent. -/
def dictDel (d : Dict) (k : String) : Except PyErr Dict :=
  if containsKey d k then Except.ok (dictErase d k) else Except.error (PyErr.keyError k)

/-- The class-level configuration of a concrete record type: the class
attributes `SCHEMA`, `PRIMARY_KEY`, `TABLE` of `API_Template`. -/
structure Config where
  SCHEMA : Schema
  PRIMARY_KEY : String
  TABLE : String
  deriving DecidableEq, Repr

/-- The database collaborator: committed rows per table name. -/
abbrev DB := String → List Row

/-- `db.where(table, **kv)`: the rows of `table` whose columns match every
key/value pair of the predicate. -/
def dbWhere (db : DB) (table : String) (kv : List (String × Value)) : List Row :=
  (db table).filter (fun r => kv.all (fun p => alistGet p.1 r == some p.2))

/-- The in-memory state of an `API_Template` instance: the fields assigned in
`__init__` (`primary_key`, `schema`, `table`, `obj_id`, `_raw_data` — each
possibly Python `None`, hence `Option` / `Value.vNone`) plus the dynamic
attribute dict that `setattr` / `getattr` operate on. -/
structure Instance where
  primary_key : Option String
  schema : Option Schema
  table : Option String
  obj_id : Value
  raw_data : Option Row
  attrs : Dict
  deriving DecidableEq, Repr

/-- `getattr(self, name, dflt)` over the dynamic attribute dict. -/
def getattrD (inst : Instance) (name : String) (dflt : Value) : Value :=
  match alistGet name inst.attrs with
  | some v => v
  | none => dflt

/-- `setattr(self, name, v)`. -/
def setattrI (inst : Instance) (name : String) (v : Value) : Instance :=
  { inst with attrs := dictSet inst.attrs name v }

/-- Python truthiness of the `_raw_data` field: `None` is falsy, a dict is
truthy iff nonempty. -/
def rawTruthy : Option Row → Bool
  | none => false
  | some r => !r.isEmpty

/-- `_inject_custom_keys` (template_api.py line 205): default behaviour is a
no-op pass-through of the row. -/
def _inject_custom_keys (obj : Option Row) : Option Row :=
  obj

/-- The attribute assignments performed by the loop of `_set_data`
(template_api.py lines 78-80): for each schema entry `(key, db_key)`, if
`db_key in raw_data` then `setattr(self, key, raw_data[db_key])`.  Only the
dynamic attribute dict is affected, so it is computed directly. -/
def setDataAttrs (s : Schema) (r : Row) (a : Dict) : Dict :=
  s.foldl
    (fun a p => if containsKey r p.2 then dictSet a p.1 ((alistGet p.2 r).getD Value.vNone) else a)
    a

/-- `_set_data(self, raw_data)` (template_api.py lines 67-81).  Iterating
`self.schema.items()` with `self.schema = None` raises `AttributeError`;
evaluating `db_key in raw_data` with `raw_data = None` raises `TypeError`
(reached only when the schema has at least one entry). -/
def _set_data (inst : Instance) (raw : Option Row) : Except PyErr Instance :=
  match inst.schema with
  | none => Except.error PyErr.attributeError
  | some s =>
    match raw with
    | none => if s.isEmpty then Except.ok inst else Except.error PyErr.typeError
    | some r => Except.ok { inst with attrs := setDataAttrs s r inst.attrs }

/-- `_get_query(cls, obj_id)` (template_api.py lines 240-253): fetch
`db.where(cls.TABLE, **{cls.PRIMARY_KEY: obj_id})[0]`, converting the
IndexError of an empty result into `None`. -/
def _get_query (cfg : Config) (db : DB) (obj_id : Value) : Option Row :=
  match dbWhere db cfg.TABLE [(cfg.PRIMARY_KEY, obj_id)] with
  | [] => none
  | r :: _ => some r

/-- `_construct_obj_from_id` (template_api.py lines 33-36). -/
def _construct_obj_from_id (cfg : Config) (db : DB) (inst : Instance) : Except PyErr Instance :=
  let raw := _get_query cfg db inst.obj_id
  _set_data { inst with raw_data := raw } raw

/-- `_construct_obj_from_data` (template_api.py lines 39-49): derive `obj_id`
from the raw row when `self.primary_key in self._raw_data` (with
`self.primary_key = None` the membership test is false for a string-keyed
row), then populate via `_set_data`. -/
def _construct_obj_from_data (inst : Instance) : Except PyErr Instance :=
  let r := inst.raw_data.getD []
  let newId : Value :=
    match inst.primary_key with
    | some pk => if containsKey r pk then (alistGet pk r).getD Value.vNone else Value.vNone
    | none => Value.vNone
  _set_data { inst with obj_id := newId } (some r)

/-- `_construct_obj_from_defaults` (template_api.py lines 51-65): iterate the
schema and set every logical field to `None`; iterating `None` raises
`TypeError`. -/
def _construct_obj_from_defaults (inst : Instance) : Except PyErr Instance :=
  match inst.schema with
  | none => Except.error PyErr.typeError
  | some s =>
    Except.ok { inst with attrs := s.foldl (fun a p => dictSet a p.1 Value.vNone) inst.attrs }

/-- `_construct_obj` (template_api.py lines 24-31): dispatch on the
truthiness of `obj_id` and `_raw_data`. -/
def _construct_obj (cfg : Config) (db : DB) (inst : Instance) : Except PyErr Instance :=
  if pyTruthy inst.obj_id then _construct_obj_from_id cfg db inst
  else if rawTruthy inst.raw_data then _construct_obj_from_data inst
  else _construct_obj_from_defaults inst

/-- `__init__` (template_api.py lines 16-22): store the constructor
parameters (each defaulting to Python `None`) and run `_construct_obj`.  The
`cfg` carries the class attributes consulted by the classmethod
`_get_query`. -/
def initInstance (cfg : Config) (db : DB) (obj_id : Value) (raw_data : Option Row)
    (primary_key : Option String) (schema : Option Schema) (table : Option String) :
    Except PyErr Instance :=
  _construct_obj cfg db
    { primary_key := primary_key, schema := schema, table := table,
      obj_id := obj_id, raw_data := raw_data, attrs := [] }

/-- The dict built by the schema loop of `_clean_keys` (template_api.py
lines 92-95): for each schema entry `(skey, col)` read
`getattr(self, self.schema[skey], None)` — the attribute named by the
storage column — and include it under the logical key `skey` when truthy. -/
def cleanBase (inst : Instance) (s : Schema) : Dict :=
  s.foldl
    (fun a p =>
      let val := getattrD inst p.2 Value.vNone
      if pyTruthy val then dictSet a p.1 val else a)
    []

/-- `_clean_keys(self, db_operation, safe)` (template_api.py lines 83-114).
`now` is the `str(datetime.datetime.utcnow())` rendering.  Faithful to the
source: the `created` column is stamped unconditionally whenever the schema
declares `created`; stamping `modified` without a `created` field references
the unbound local `timestamp` and raises `NameError`; the safe branch
performs `del attrs[...]` which raises `KeyError` when the key is absent. -/
def _clean_keys (inst : Instance) (db_operation : Bool) (safe : Bool) (now : String) :
    Except PyErr Dict :=
  match inst.schema with
  | none => Except.error PyErr.typeError
  | some s =>
    let attrs := cleanBase inst s
    let attrs :=
      match inst.primary_key with
      | some pk => if db_operation && containsKey attrs pk then dictErase attrs pk else attrs
      | none => attrs
    let stamped : Except PyErr Dict :=
      match alistGet "created" s, alistGet "modified" s with
      | some c, some m =>
        Except.ok (dictSet (dictSet attrs c (Value.vStr now)) m (Value.vStr now))
      | some c, none => Except.ok (dictSet attrs c (Value.vStr now))
      | none, some _ => Except.error (PyErr.nameError "timestamp")
      | none, none => Except.ok attrs
    match stamped with
    | Except.error e => Except.error e
    | Except.ok attrs2 =>
      if safe && containsKey s "password" then
        match dictDel attrs2 "password" with
        | Except.error e => Except.error e
        | Except.ok a2 => dictDel a2 "salt"
      else Except.ok attrs2

/-- `_json_serializable(self, safe=True)` (template_api.py lines 116-126):
same column-named attribute read as `_clean_keys`, every included value
stringified, and under `safe` the logical keys `password` and `salt` are
skipped. -/
def _json_serializable (inst : Instance) (safe : Bool) : Except PyErr Dict :=
  match inst.schema with
  | none => Except.error PyErr.typeError
  | some s =>
    Except.ok
      (s.foldl
        (fun a p =>
          let val := getattrD inst p.2 Value.vNone
          if pyTruthy val && (!safe || (p.1 != "password" && p.1 != "salt")) then
            dictSet a p.1 (Value.vStr (pyStr val))
          else a)
        [])

/-- `convert_attr2json` (template_api.py lines 320-326): stringify Decimal
and datetime values, pass everything else through. -/
def convert_attr2json (k : String) (v : Value) : String × Value :=
  match v with
  | Value.vDecimal s => (k, Value.vStr s)
  | Value.vDatetime s => (k, Value.vStr s)
  | _ => (k, v)

/-- `json_serializable` (template_api.py lines 313-318): `_clean_keys()` with
its defaults (`db_operation=False, safe=False`), each item passed through
`convert_attr2json`. -/
def json_serializable (inst : Instance) (now : String) : Except PyErr Dict :=
  match _clean_keys inst false false now with
  | Except.error e => Except.error e
  | Except.ok d => Except.ok (d.map (fun p => convert_attr2json p.1 p.2))

/-- The transaction and gateway traffic of a persistence operation. -/
inductive TxEvent where
  | begin : TxEvent
  | insertCall : Dict → TxEvent
  | updateCall : String → Dict → TxEvent
  | commit : TxEvent
  | rollback : TxEvent
  deriving DecidableEq, Repr

/-- `_validate` (template_api.py lines 167-186): default no-op hook. -/
def _validate (_inst : Instance) : Except PyErr Unit :=
  Except.ok ()

/-- `update` (template_api.py lines 128-142).  `gw` is the outcome of
`self.DB.update(...)` (row count, or a raised failure).  With
`self.primary_key = None`, `getattr(self, None, None)` raises `TypeError`.
The `with self.DB.transaction()` block commits on normal exit (including the
`return` of the primary key) and rolls back when the gateway call raises.
Note the source returns `self.primary_key` — the primary-key field name —
on success, and falls through to `return None` when the gateway reports no
row updated. -/
def update (inst : Instance) (now : String) (gw : Except PyErr Nat) :
    Except PyErr Value × List TxEvent :=
  match inst.primary_key with
  | none => (Except.error PyErr.typeError, [])
  | some pk =>
    let pkey := getattrD inst pk Value.vNone
    if pyTruthy pkey then
      match _clean_keys inst true false now with
      | Except.error e => (Except.error e, [])
      | Except.ok attrs =>
        let w := pk ++ "=" ++ pyStr pkey
        match gw with
        | Except.error e =>
          (Except.error e, [TxEvent.begin, TxEvent.updateCall w attrs, TxEvent.rollback])
        | Except.ok n =>
          if n != 0 then
            (Except.ok (Value.vStr pk), [TxEvent.begin, TxEvent.updateCall w attrs, TxEvent.commit])
          else
            (Except.ok Value.vNone, [TxEvent.begin, TxEvent.updateCall w attrs, TxEvent.commit])
    else (Except.ok Value.vNone, [])

/-- `insert` (template_api.py lines 144-165).  `gw` is the outcome of
`self.DB.insert(...)` (the new identifier, or a raised failure).  On a
gateway failure the explicit `t.rollback()` runs and the failure is
re-raised; on success `t.commit()` runs, the returned identifier is assigned
to the primary-key attribute and returned.  With a truthy primary-key
attribute the method returns `False` without touching the gateway.  The
result is `(return value, transaction trace, resulting instance)`. -/
def insert (inst : Instance) (now : String) (gw : Except PyErr Value) :
    Except PyErr Value × List TxEvent × Instance :=
  match inst.primary_key with
  | none => (Except.error PyErr.typeError, [], inst)
  | some pk =>
    let pkey := getattrD inst pk Value.vNone
    if !pyTruthy pkey then
      match _clean_keys inst true false now with
      | Except.error e => (Except.error e, [], inst)
      | Except.ok attrs =>
        match gw with
        | Except.error e =>
          (Except.error e, [TxEvent.begin, TxEvent.insertCall attrs, TxEvent.rollback], inst)
        | Except.ok entry_id =>
          (Except.ok entry_id, [TxEvent.begin, TxEvent.insertCall attrs, TxEvent.commit],
            setattrI inst pk entry_id)
    else (Except.ok (Value.vBool false), [], inst)

/-- `get_by(cls, attribute, value)` (template_api.py lines 221-232): resolve
the storage column via `cls.SCHEMA[attribute]` (raising `KeyError` when the
attribute is not in the schema), fetch the first matching row (`IndexError`
of an empty result converted to `None`), and on a match construct
`cls(raw_data=obj, db=db)` — which passes `primary_key=None, schema=None,
table=None` to `__init__`. -/
def get_by (cfg : Config) (db : DB) (attr : String) (value : Value) :
    Except PyErr (Option Instance) :=
  match alistGet attr cfg.SCHEMA with
  | none => Except.error (PyErr.keyError attr)
  | some col =>
    match dbWhere db cfg.TABLE [(col, value)] with
    | [] => Except.ok none
    | r :: _ =>
      match initInstance cfg db Value.vNone (some r) none none none with
      | Except.error e => Except.error e
      | Except.ok i => Except.ok (some i)

/-- `get(cls, obj_id)` (template_api.py lines 256-262). -/
def get (cfg : Config) (db : DB) (obj_id : Value) : Option Row :=
  _get_query cfg db obj_id

/-- `exists(cls, obj_id)` (template_api.py lines 297-302): calls `get`; the
surrounding `except IndexError` is defensive duplication — `_get_query`
already converted the empty-result IndexError — so the behaviour is that of
`get`. -/
def exists' (cfg : Config) (db : DB) (obj_id : Value) : Option Row :=
  get cfg db obj_id

/-
Lemma layer: facts about the dict primitives and a generic schema fold that
the three schema-iterating loops of the source reduce to.
-/

deriving instance DecidableEq for Except

/-- The keys of an assoc list are pairwise distinct (the Python dict
invariant). -/
def keysNodup (l : List (String × β)) : Prop :=
  (l.map Prod.fst).Nodup

instance (l : List (String × β)) : Decidable (keysNodup l) := by
  unfold keysNodup
  infer_instance

theorem alistGet_dictSet_self (d : Dict) (k : String) (v : Value) :
    alistGet k (dictSet d k v) = some v := by
  induction d with
  | nil => simp [dictSet, alistGet]
  | cons p t ih =>
    by_cases h : p.1 = k
    · simp [dictSet, h, alistGet]
    · simp [dictSet, h, alistGet, ih]

theorem alistGet_dictSet_ne (d : Dict) (k j : String) (v : Value) (h : j ≠ k) :
    alistGet j (dictSet d k v) = alistGet j d := by
  have hkj : ¬ k = j := fun hh => h hh.symm
  induction d with
  | nil => simp [dictSet, alistGet, hkj]
  | cons p t ih =>
    by_cases hp : p.1 = k
    · have hpj : ¬ p.1 = j := by rw [hp]; exact hkj
      simp [dictSet, hp, alistGet, hkj, hpj]
    · by_cases hj : p.1 = j
      · simp [dictSet, hp, alistGet, hj, h]
      · simp [dictSet, hp, alistGet, hj, h, ih]

theorem containsKey_eq_isSome (d : List (String × β)) (k : String) :
    containsKey d k = (alistGet k d).isSome := by
  induction d with
  | nil => simp [containsKey, alistGet]
  | cons p t ih =>
    by_cases h : p.1 = k
    · simp [containsKey, alistGet, h]
    · simp [containsKey, alistGet, h, ih]

theorem alistGet_of_no_key (l : List (String × β)) (k : String)
    (h : ∀ p ∈ l, p.1 ≠ k) : alistGet k l = none := by
  induction l with
  | nil => rfl
  | cons p t ih =>
    have hp : p.1 ≠ k := h p (List.mem_cons_self p t)
    simp only [alistGet, if_neg hp]
    exact ih (fun q hq => h q (List.mem_cons_of_mem p hq))

theorem no_key_of_alistGet_none (l : List (String × β)) (k : String)
    (h : alistGet k l = none) : ∀ p ∈ l, p.1 ≠ k := by
  induction l with
  | nil => intro p hp; cases hp
  | cons p t ih =>
    intro q hq
    by_cases hp : p.1 = k
    · simp [alistGet, hp] at h
    · simp only [alistGet, if_neg hp] at h
      rcases List.mem_cons.mp hq with hq1 | hq2
      · subst hq1; exact hp
      · exact ih h q hq2

theorem alistGet_dictErase_ne (d : Dict) (k j : String) (h : j ≠ k) :
    alistGet j (dictErase d k) = alistGet j d := by
  have hkj : ¬ k = j := fun hh => h hh.symm
  induction d with
  | nil => simp [dictErase]
  | cons p t ih =>
    by_cases hp : p.1 = k
    · have hpj : ¬ p.1 = j := by rw [hp]; exact hkj
      simp [dictErase, hp, alistGet, hkj, hpj]
    · by_cases hj : p.1 = j
      · simp [dictErase, hp, alistGet, hj, h]
      · simp [dictErase, hp, alistGet, hj, h, ih]

theorem alistGet_dictErase_self (d : Dict) (k : String) (h : keysNodup d) :
    alistGet k (dictErase d k) = none := by
  induction d with
  | nil => rfl
  | cons p t ih =>
    unfold keysNodup at h
    simp only [List.map_cons, List.nodup_cons] at h
    by_cases hp : p.1 = k
    · simp only [dictErase, if_pos hp]
      apply alistGet_of_no_key
      intro q hq hqk
      exact h.1 (by rw [hp, ← hqk]; exact List.mem_map_of_mem Prod.fst hq)
    · simp only [dictErase, if_neg hp, alistGet, if_neg hp]
      exact ih h.2

theorem containsKey_dictErase_false (d : Dict) (k j : String)
    (h : containsKey d j = false) : containsKey (dictErase d k) j = false := by
  induction d with
  | nil => rfl
  | cons p t ih =>
    by_cases hp : p.1 = k
    · simp only [dictErase, if_pos hp]
      by_cases hj : p.1 = j
      · simp [containsKey, hj] at h
      · simp only [containsKey, if_neg hj] at h
        exact h
    · by_cases hj : p.1 = j
      · simp [containsKey, hj] at h
      · simp only [dictErase, if_neg hp, containsKey, if_neg hj]
        apply ih
        simpa [containsKey, hj] using h

theorem containsKey_dictSet_true (d : Dict) (k j : String) (v : Value)
    (h : containsKey d j = true) : containsKey (dictSet d k v) j = true := by
  rw [containsKey_eq_isSome] at h ⊢
  by_cases hj : j = k
  · subst hj; rw [alistGet_dictSet_self]; rfl
  · rw [alistGet_dictSet_ne d k j v hj]; exact h

theorem containsKey_dictSet_false (d : Dict) (k j : String) (v : Value)
    (hj : j ≠ k) (h : containsKey d j = false) :
    containsKey (dictSet d k v) j = false := by
  rw [containsKey_eq_isSome] at h ⊢
  rw [alistGet_dictSet_ne d k j v hj]
  exact h

theorem mem_keys_dictSet (d : Dict) (k j : String) (v : Value)
    (h : j ∈ (dictSet d k v).map Prod.fst) : j = k ∨ j ∈ d.map Prod.fst := by
  induction d with
  | nil => simp [dictSet] at h; exact Or.inl h
  | cons p t ih =>
    by_cases hp : p.1 = k
    · simp only [dictSet, if_pos hp, List.map_cons, List.mem_cons] at h
      rcases h with h | h
      · exact Or.inl h
      · exact Or.inr (by simp only [List.map_cons, List.mem_cons]; exact Or.inr h)
    · simp only [dictSet, if_neg hp, List.map_cons, List.mem_cons] at h
      rcases h with h | h
      · exact Or.inr (by simp [h])
      · rcases ih h with h1 | h1
        · exact Or.inl h1
        · exact Or.inr (by simp only [List.map_cons, List.mem_cons]; exact Or.inr h1)

theorem keysNodup_dictSet (d : Dict) (k : String) (v : Value)
    (h : keysNodup d) : keysNodup (dictSet d k v) := by
  induction d with
  | nil => simp [dictSet, keysNodup]
  | cons p t ih =>
    unfold keysNodup at h ⊢
    simp only [List.map_cons, List.nodup_cons] at h
    by_cases hp : p.1 = k
    · simp only [dictSet, if_pos hp, List.map_cons, List.nodup_cons]
      exact ⟨by rw [← hp]; exact h.1, h.2⟩
    · simp only [dictSet, if_neg hp, List.map_cons, List.nodup_cons]
      refine ⟨fun hmem => ?_, ih h.2⟩
      rcases mem_keys_dictSet t k p.1 v hmem with h1 | h1
      · exact hp h1
      · exact h.1 h1

/-- The generic shape of the three schema-iterating loops of the source:
walk the schema in order and, when the per-entry function produces a value,
store it under the entry's logical key. -/
def schemaFold (g : String × String → Option Value) (s : Schema) (a : Dict) : Dict :=
  s.foldl
    (fun a p =>
      match g p with
      | some v => dictSet a p.1 v
      | none => a)
    a

theorem schemaFold_cons (g : String × String → Option Value) (p : String × String)
    (t : Schema) (a : Dict) :
    schemaFold g (p :: t) a
      = schemaFold g t (match g p with | some v => dictSet a p.1 v | none => a) := rfl

theorem schemaFold_lookup_congr (g g' : String × String → Option Value) (s : Schema)
    (a a' : Dict) (k : String)
    (hg : ∀ p ∈ s, p.1 = k → g p = g' p) (ha : alistGet k a = alistGet k a') :
    alistGet k (schemaFold g s a) = alistGet k (schemaFold g' s a') := by
  induction s generalizing a a' with
  | nil => simpa [schemaFold] using ha
  | cons p t ih =>
    rw [schemaFold_cons, schemaFold_cons]
    refine ih _ _ (fun q hq hqk => hg q (List.mem_cons_of_mem p hq) hqk) ?_
    by_cases hk : p.1 = k
    · rw [hg p (List.mem_cons_self p t) hk]
      cases hgp : g' p with
      | some v => subst hk; simp [alistGet_dictSet_self]
      | none => exact ha
    · have hne : k ≠ p.1 := fun hh => hk hh.symm
      cases hgp : g p with
      | some v =>
        cases hgp' : g' p with
        | some v' => rw [alistGet_dictSet_ne a p.1 k v hne,
                         alistGet_dictSet_ne a' p.1 k v' hne]; exact ha
        | none => rw [alistGet_dictSet_ne a p.1 k v hne]; exact ha
      | none =>
        cases hgp' : g' p with
        | some v' => rw [alistGet_dictSet_ne a' p.1 k v' hne]; exact ha
        | none => exact ha

theorem schemaFold_contains_mono (g : String × String → Option Value) (s : Schema)
    (a : Dict) (k : String) (h : containsKey a k = true) :
    containsKey (schemaFold g s a) k = true := by
  induction s generalizing a with
  | nil => exact h
  | cons p t ih =>
    rw [schemaFold_cons]
    cases hgp : g p with
    | some v => exact ih _ (containsKey_dictSet_true a p.1 k v h)
    | none => exact ih _ h

theorem schemaFold_contains_of (g : String × String → Option Value) (s : Schema)
    (a : Dict) (k col : String) (v : Value)
    (hs : alistGet k s = some col) (hv : g (k, col) = some v) :
    containsKey (schemaFold g s a) k = true := by
  induction s generalizing a with
  | nil => cases hs
  | cons p t ih =>
    rw [schemaFold_cons]
    by_cases hp : p.1 = k
    · have hcol : p.2 = col := by
        simp only [alistGet, if_pos hp] at hs
        exact Option.some.inj hs
      have hgp : g p = some v := by
        have hpeq : p = (k, col) := by
          cases p
          simp only at hp hcol
          rw [hp, hcol]
        rw [hpeq]
        exact hv
      rw [hgp]
      exact schemaFold_contains_mono g t (dictSet a p.1 v) k (by
        rw [hp, containsKey_eq_isSome, alistGet_dictSet_self]
        rfl)
    · simp only [alistGet, if_neg hp] at hs
      cases hgp : g p with
      | some w => exact ih _ hs
      | none => exact ih _ hs

theorem schemaFold_not_contains (g : String × String → Option Value) (s : Schema)
    (a : Dict) (k : String)
    (hg : ∀ p ∈ s, p.1 = k → g p = none) (h : containsKey a k = false) :
    containsKey (schemaFold g s a) k = false := by
  induction s generalizing a with
  | nil => exact h
  | cons p t ih =>
    rw [schemaFold_cons]
    by_cases hp : p.1 = k
    · rw [hg p (List.mem_cons_self p t) hp]
      exact ih _ (fun q hq hqk => hg q (List.mem_cons_of_mem p hq) hqk) h
    · cases hgp : g p with
      | some v =>
        exact ih _ (fun q hq hqk => hg q (List.mem_cons_of_mem p hq) hqk)
          (containsKey_dictSet_false a p.1 k v (fun hh => hp hh.symm) h)
      | none => exact ih _ (fun q hq hqk => hg q (List.mem_cons_of_mem p hq) hqk) h

theorem schemaFold_lookup_no_key (g : String × String → Option Value) (s : Schema)
    (a : Dict) (k : String) (h : ∀ p ∈ s, p.1 ≠ k) :
    alistGet k (schemaFold g s a) = alistGet k a := by
  induction s generalizing a with
  | nil => rfl
  | cons p t ih =>
    rw [schemaFold_cons]
    have hp : p.1 ≠ k := h p (List.mem_cons_self p t)
    have hrest : ∀ q ∈ t, q.1 ≠ k := fun q hq => h q (List.mem_cons_of_mem p hq)
    cases hgp : g p with
    | some v => rw [ih _ hrest, alistGet_dictSet_ne a p.1 k v (fun hh => hp hh.symm)]
    | none => exact ih _ hrest

theorem schemaFold_lookup_value (g : String × String → Option Value) (s : Schema)
    (a : Dict) (k col : String) (v : Value)
    (hn : keysNodup s) (hs : alistGet k s = some col) (hv : g (k, col) = some v) :
    alistGet k (schemaFold g s a) = some v := by
  induction s generalizing a with
  | nil => cases hs
  | cons p t ih =>
    unfold keysNodup at hn
    simp only [List.map_cons, List.nodup_cons] at hn
    rw [schemaFold_cons]
    by_cases hp : p.1 = k
    · have hcol : p.2 = col := by
        simp only [alistGet, if_pos hp] at hs
        exact Option.some.inj hs
      have hgp : g p = some v := by
        have hpeq : p = (k, col) := by
          cases p
          simp only at hp hcol
          rw [hp, hcol]
        rw [hpeq]
        exact hv
      have hnk : ∀ q ∈ t, q.1 ≠ k := by
        intro q hq hqk
        apply hn.1
        rw [hp, ← hqk]
        exact List.mem_map_of_mem Prod.fst hq
      have h2 : alistGet k (dictSet a p.1 v) = some v := by
        rw [hp]
        exact alistGet_dictSet_self a k v
      rw [hgp]
      exact (schemaFold_lookup_no_key g t (dictSet a p.1 v) k hnk).trans h2
    · simp only [alistGet, if_neg hp] at hs
      exact ih _ hn.2 hs

theorem keysNodup_schemaFold (g : String × String → Option Value) (s : Schema) (a : Dict)
    (h : keysNodup a) : keysNodup (schemaFold g s a) := by
  induction s generalizing a with
  | nil => exact h
  | cons p t ih =>
    rw [schemaFold_cons]
    cases hgp : g p with
    | some v => exact ih _ (keysNodup_dictSet a p.1 v h)
    | none => exact ih _ h

theorem snd_eq_of_nodup (l : List (String × β)) (k : String) (col : β)
    (hn : keysNodup l) (hl : alistGet k l = some col) :
    ∀ p ∈ l, p.1 = k → p.2 = col := by
  induction l with
  | nil => intro p hp; cases hp
  | cons p t ih =>
    unfold keysNodup at hn
    simp only [List.map_cons, List.nodup_cons] at hn
    intro q hq hqk
    by_cases hp : p.1 = k
    · simp only [alistGet, if_pos hp] at hl
      rcases List.mem_cons.mp hq with hq1 | hq2
      · subst hq1; exact Option.some.inj hl
      · refine absurd ?_ hn.1
        rw [hp, ← hqk]
        exact List.mem_map_of_mem Prod.fst hq2
    · simp only [alistGet, if_neg hp] at hl
      rcases List.mem_cons.mp hq with hq1 | hq2
      · subst hq1; exact absurd hqk hp
      · exact ih hn.2 hl q hq2 hqk

theorem getattrD_setattrI_self (inst : Instance) (k : String) (v d : Value) :
    getattrD (setattrI inst k v) k d = v := by
  unfold getattrD setattrI
  simp [alistGet_dictSet_self]

theorem getattrD_setattrI_ne (inst : Instance) (k j : String) (v d : Value) (h : j ≠ k) :
    getattrD (setattrI inst k v) j d = getattrD inst j d := by
  unfold getattrD setattrI
  simp only
  rw [alistGet_dictSet_ne inst.attrs k j v h]

/-
Bridges from the three schema loops of the source to `schemaFold`.
-/

/-- The per-entry action of the `_clean_keys` schema loop. -/
def gClean (inst : Instance) : String × String → Option Value :=
  fun p =>
    let val := getattrD inst p.2 Value.vNone
    if pyTruthy val then some val else none

theorem cleanBase_eq_schemaFold (inst : Instance) (s : Schema) :
    cleanBase inst s = schemaFold (gClean inst) s [] := by
  unfold cleanBase schemaFold
  apply List.foldl_ext
  intro a p _
  by_cases h : pyTruthy (getattrD inst p.2 Value.vNone)
  · simp [gClean, h]
  · simp [gClean, h]

/-- The per-entry action of the `_json_serializable` schema loop. -/
def gJson (inst : Instance) (safe : Bool) : String × String → Option Value :=
  fun p =>
    let val := getattrD inst p.2 Value.vNone
    if pyTruthy val && (!safe || (p.1 != "password" && p.1 != "salt")) then
      some (Value.vStr (pyStr val))
    else none

theorem json_serializable_priv_eq (inst : Instance) (s : Schema) (safe : Bool)
    (h : inst.schema = some s) :
    _json_serializable inst safe = Except.ok (schemaFold (gJson inst safe) s []) := by
  unfold _json_serializable
  rw [h]
  dsimp only
  congr 1
  unfold schemaFold
  apply List.foldl_ext
  intro a p _
  by_cases hc : pyTruthy (getattrD inst p.2 Value.vNone)
      && (!safe || (p.1 != "password" && p.1 != "salt"))
  · simp only [gJson, if_pos hc]
  · simp only [gJson, if_neg hc]

/-- The per-entry action of the `_set_data` schema loop. -/
def gSetData (r : Row) : String × String → Option Value :=
  fun p => if containsKey r p.2 then some ((alistGet p.2 r).getD Value.vNone) else none

theorem setDataAttrs_eq_schemaFold (s : Schema) (r : Row) (a : Dict) :
    setDataAttrs s r a = schemaFold (gSetData r) s a := by
  unfold setDataAttrs schemaFold
  apply List.foldl_ext
  intro a p _
  by_cases h : containsKey r p.2
  · simp [gSetData, h]
  · simp [gSetData, h]

/-
Stage decomposition of `_clean_keys`: primary-key removal, timestamp
stamping and the safe deletion, exactly as the source performs them.
-/

/-- Lines 97-98 of the source: drop the primary key from a write payload. -/
def pkeyStep (pko : Option String) (db_operation : Bool) (a : Dict) : Dict :=
  match pko with
  | some pk => if db_operation && containsKey a pk then dictErase a pk else a
  | none => a

/-- Lines 104-108: the `created` / `modified` stamping. -/
def stampStep (s : Schema) (now : String) (a : Dict) : Except PyErr Dict :=
  match alistGet "created" s, alistGet "modified" s with
  | some c, some m => Except.ok (dictSet (dictSet a c (Value.vStr now)) m (Value.vStr now))
  | some c, none => Except.ok (dictSet a c (Value.vStr now))
  | none, some _ => Except.error (PyErr.nameError "timestamp")
  | none, none => Except.ok a

/-- Lines 110-112: the safe `del` of `password` and `salt`. -/
def safeStep (s : Schema) (safe : Bool) (e : Except PyErr Dict) : Except PyErr Dict :=
  match e with
  | Except.error e => Except.error e
  | Except.ok attrs2 =>
    if safe && containsKey s "password" then
      match dictDel attrs2 "password" with
      | Except.error e => Except.error e
      | Except.ok a2 => dictDel a2 "salt"
    else Except.ok attrs2

theorem clean_keys_stages (inst : Instance) (s : Schema) (db_operation safe : Bool)
    (now : String) (hs : inst.schema = some s) :
    _clean_keys inst db_operation safe now
      = safeStep s safe
          (stampStep s now (pkeyStep inst.primary_key db_operation (cleanBase inst s))) := by
  unfold _clean_keys
  rw [hs]
  rfl

theorem safeStep_false (s : Schema) (e : Except PyErr Dict) : safeStep s false e = e := by
  cases e with
  | error e => rfl
  | ok d => simp [safeStep]

theorem pkeyStep_false (pko : Option String) (a : Dict) : pkeyStep pko false a = a := by
  cases pko with
  | none => rfl
  | some pk => simp [pkeyStep]

theorem pkeyStep_contains_false (pko : Option String) (dbop : Bool) (a : Dict) (k : String)
    (h : containsKey a k = false) : containsKey (pkeyStep pko dbop a) k = false := by
  cases pko with
  | none => exact h
  | some pk =>
    unfold pkeyStep
    by_cases hd : dbop && containsKey a pk
    · simp only [if_pos hd]
      exact containsKey_dictErase_false a pk k h
    · simp only [if_neg hd]
      exact h

theorem mem_keys_dictErase (t : Dict) (k j : String)
    (h : j ∈ (dictErase t k).map Prod.fst) : j ∈ t.map Prod.fst := by
  induction t with
  | nil => exact h
  | cons q u ih =>
    by_cases hq : q.1 = k
    · simp only [dictErase, if_pos hq] at h
      simp only [List.map_cons, List.mem_cons]
      exact Or.inr h
    · simp only [dictErase, if_neg hq, List.map_cons, List.mem_cons] at h
      simp only [List.map_cons, List.mem_cons]
      rcases h with h | h
      · exact Or.inl h
      · exact Or.inr (ih h)

theorem keysNodup_dictErase (a : Dict) (k : String) (h : keysNodup a) :
    keysNodup (dictErase a k) := by
  induction a with
  | nil => exact h
  | cons p t ih =>
    unfold keysNodup at h ⊢
    simp only [List.map_cons, List.nodup_cons] at h
    by_cases hp : p.1 = k
    · simp only [dictErase, if_pos hp]
      exact h.2
    · simp only [dictErase, if_neg hp, List.map_cons, List.nodup_cons]
      exact ⟨fun hmem => h.1 (mem_keys_dictErase t k p.1 hmem), ih h.2⟩

theorem pkeyStep_keysNodup (pko : Option String) (dbop : Bool) (a : Dict)
    (h : keysNodup a) : keysNodup (pkeyStep pko dbop a) := by
  cases pko with
  | none => exact h
  | some pk =>
    unfold pkeyStep
    by_cases hd : dbop && containsKey a pk
    · simp only [if_pos hd]
      exact keysNodup_dictErase a pk h
    · simp only [if_neg hd]
      exact h

theorem pkeyStep_lookup_of_ne (pk : String) (dbop : Bool) (a : Dict) (k : String)
    (h : k ≠ pk) : alistGet k (pkeyStep (some pk) dbop a) = alistGet k a := by
  unfold pkeyStep
  by_cases hd : dbop && containsKey a pk
  · simp only [if_pos hd]
    exact alistGet_dictErase_ne a pk k h
  · simp only [if_neg hd]

theorem pkeyStep_lookup_congr (pko : Option String) (dbop : Bool) (a b : Dict) (k : String)
    (hl : alistGet k a = alistGet k b) (hna : keysNodup a) (hnb : keysNodup b) :
    alistGet k (pkeyStep pko dbop a) = alistGet k (pkeyStep pko dbop b) := by
  cases pko with
  | none => exact hl
  | some pk =>
    by_cases hkp : k = pk
    · subst hkp
      unfold pkeyStep
      dsimp only
      have hc : containsKey a k = containsKey b k := by
        rw [containsKey_eq_isSome, containsKey_eq_isSome, hl]
      rw [hc]
      by_cases hd : dbop && containsKey b k
      · simp only [if_pos hd]
        rw [alistGet_dictErase_self a k hna, alistGet_dictErase_self b k hnb]
      · simp only [if_neg hd]
        exact hl
    · rw [pkeyStep_lookup_of_ne pk dbop a k hkp, pkeyStep_lookup_of_ne pk dbop b k hkp]
      exact hl

theorem stampStep_ok (s : Schema) (now : String) (a : Dict)
    (hstamp : (alistGet "modified" s).isSome = true → (alistGet "created" s).isSome = true) :
    ∃ b, stampStep s now a = Except.ok b := by
  unfold stampStep
  cases hc : alistGet "created" s with
  | some c =>
    cases hm : alistGet "modified" s with
    | some m => exact ⟨_, rfl⟩
    | none => exact ⟨_, rfl⟩
  | none =>
    cases hm : alistGet "modified" s with
    | some m =>
      rw [hc, hm] at hstamp
      simp at hstamp
    | none => exact ⟨_, rfl⟩

theorem stampStep_contains_true (s : Schema) (now : String) (a b : Dict) (k : String)
    (hb : stampStep s now a = Except.ok b) (hk : containsKey a k = true) :
    containsKey b k = true := by
  unfold stampStep at hb
  cases hc : alistGet "created" s with
  | some c =>
    cases hm : alistGet "modified" s with
    | some m =>
      rw [hc, hm] at hb
      cases hb
      exact containsKey_dictSet_true _ m k _ (containsKey_dictSet_true a c k _ hk)
    | none =>
      rw [hc, hm] at hb
      cases hb
      exact containsKey_dictSet_true a c k _ hk
  | none =>
    cases hm : alistGet "modified" s with
    | some m => rw [hc, hm] at hb; cases hb
    | none => rw [hc, hm] at hb; cases hb; exact hk

theorem stampStep_contains_false (s : Schema) (now : String) (a b : Dict) (k : String)
    (hb : stampStep s now a = Except.ok b) (hk : containsKey a k = false)
    (hcr : ∀ c, alistGet "created" s = some c → c ≠ k)
    (hmo : ∀ m, alistGet "modified" s = some m → m ≠ k) :
    containsKey b k = false := by
  unfold stampStep at hb
  cases hc : alistGet "created" s with
  | some c =>
    cases hm : alistGet "modified" s with
    | some m =>
      rw [hc, hm] at hb
      cases hb
      exact containsKey_dictSet_false _ m k _ (fun hh => (hmo m hm) hh.symm)
        (containsKey_dictSet_false a c k _ (fun hh => (hcr c hc) hh.symm) hk)
    | none =>
      rw [hc, hm] at hb
      cases hb
      exact containsKey_dictSet_false a c k _ (fun hh => (hcr c hc) hh.symm) hk
  | none =>
    cases hm : alistGet "modified" s with
    | some m => rw [hc, hm] at hb; cases hb
    | none => rw [hc, hm] at hb; cases hb; exact hk

/-- Result-level lookup: the value at key `k` when the computation succeeded. -/
def exLookup (k : String) : Except PyErr Dict → Option Value
  | Except.ok d => alistGet k d
  | Except.error _ => none

theorem stampStep_exLookup_congr (s : Schema) (now : String) (a b : Dict) (k : String)
    (hl : alistGet k a = alistGet k b) :
    exLookup k (stampStep s now a) = exLookup k (stampStep s now b) := by
  unfold stampStep
  cases hc : alistGet "created" s with
  | some c =>
    cases hm : alistGet "modified" s with
    | some m =>
      simp only [exLookup]
      by_cases hmk : m = k
      · subst hmk
        rw [alistGet_dictSet_self, alistGet_dictSet_self]
      · rw [alistGet_dictSet_ne _ m k _ (fun hh => hmk hh.symm),
            alistGet_dictSet_ne _ m k _ (fun hh => hmk hh.symm)]
        by_cases hck : c = k
        · subst hck
          rw [alistGet_dictSet_self, alistGet_dictSet_self]
        · rw [alistGet_dictSet_ne a c k _ (fun hh => hck hh.symm),
              alistGet_dictSet_ne b c k _ (fun hh => hck hh.symm)]
          exact hl
    | none =>
      simp only [exLookup]
      by_cases hck : c = k
      · subst hck
        rw [alistGet_dictSet_self, alistGet_dictSet_self]
      · rw [alistGet_dictSet_ne a c k _ (fun hh => hck hh.symm),
            alistGet_dictSet_ne b c k _ (fun hh => hck hh.symm)]
        exact hl
  | none =>
    cases hm : alistGet "modified" s with
    | some m => simp only [exLookup]
    | none => simp only [exLookup]; exact hl

theorem clean_keys_ok (inst : Instance) (s : Schema) (dbop : Bool) (now : String)
    (hs : inst.schema = some s)
    (hstamp : (alistGet "modified" s).isSome = true → (alistGet "created" s).isSome = true) :
    ∃ d, _clean_keys inst dbop false now = Except.ok d := by
  rw [clean_keys_stages inst s dbop false now hs]
  obtain ⟨b, hb⟩ := stampStep_ok s now (pkeyStep inst.primary_key dbop (cleanBase inst s)) hstamp
  rw [hb, safeStep_false]
  exact ⟨b, rfl⟩

/-
The claims.
-/

/-- C2: for every instance whose schema declares a `created` field, every
write projection (`_clean_keys` with `safe := false`, as called by both
`insert` and `update`, for either value of `db_operation`) succeeds and
stamps the `created` storage column with the current UTC timestamp rendered
as a string; and if the schema also declares a `modified` field, that
field's storage column is stamped with the same timestamp value. -/
theorem claim_C2 (inst : Instance) (s : Schema) (ccol : String) (dbop : Bool) (now : String)
    (hs : inst.schema = some s) (hc : alistGet "created" s = some ccol) :
    ∃ d, _clean_keys inst dbop false now = Except.ok d
      ∧ alistGet ccol d = some (Value.vStr now)
      ∧ ∀ mcol, alistGet "modified" s = some mcol → alistGet mcol d = some (Value.vStr now) := by
  rw [clean_keys_stages inst s dbop false now hs]
  cases hm : alistGet "modified" s with
  | none =>
    refine ⟨dictSet (pkeyStep inst.primary_key dbop (cleanBase inst s)) ccol (Value.vStr now),
      ?_, ?_, ?_⟩
    · unfold stampStep
      rw [hc, hm, safeStep_false]
    · exact alistGet_dictSet_self _ ccol _
    · intro mcol hmc
      cases hmc
  | some m =>
    refine ⟨dictSet (dictSet (pkeyStep inst.primary_key dbop (cleanBase inst s)) ccol
        (Value.vStr now)) m (Value.vStr now), ?_, ?_, ?_⟩
    · unfold stampStep
      rw [hc, hm, safeStep_false]
    · by_cases hmc : m = ccol
      · subst hmc
        exact alistGet_dictSet_self _ m _
      · rw [alistGet_dictSet_ne _ m ccol _ (fun hh => hmc hh.symm)]
        exact alistGet_dictSet_self _ ccol _
    · intro mcol hmcol
      cases hmcol
      exact alistGet_dictSet_self _ m _

/-- The schema of the C2 witness: logical `created` maps to column
`created_at`, `modified` to `modified_at`. -/
def schemaW2 : Schema :=
  [("id", "id"), ("name", "name"), ("created", "created_at"), ("modified", "modified_at")]

/-- The instance of the C2 witness: a record with a truthy `name`. -/
def instW2 : Instance :=
  { primary_key := some "id", schema := some schemaW2, table := some "users",
    obj_id := Value.vNone, raw_data := none, attrs := [("name", Value.vStr "Ada")] }

theorem claim_C2_witness :
    instW2.schema = some schemaW2
    ∧ alistGet "created" schemaW2 = some "created_at"
    ∧ ∃ d, _clean_keys instW2 true false "2014-06-01 10:00:00" = Except.ok d
        ∧ alistGet "created_at" d = some (Value.vStr "2014-06-01 10:00:00")
        ∧ ∀ mcol, alistGet "modified" schemaW2 = some mcol →
            alistGet mcol d = some (Value.vStr "2014-06-01 10:00:00") :=
  ⟨rfl, rfl, claim_C2 instW2 schemaW2 "created_at" true "2014-06-01 10:00:00" rfl rfl⟩

theorem safeStep_keyerror (s : Schema) (b : Dict)
    (hpwmem : containsKey s "password" = true)
    (h : containsKey b "password" = false ∨ containsKey b "salt" = false) :
    ∃ j, safeStep s true (Except.ok b) = Except.error (PyErr.keyError j) := by
  unfold safeStep
  rw [hpwmem]
  simp only [Bool.and_self, if_true]
  cases hp : containsKey b "password" with
  | true =>
    rcases h with h | h
    · rw [hp] at h
      cases h
    · refine ⟨"salt", ?_⟩
      have h1 : dictDel b "password" = Except.ok (dictErase b "password") := by
        unfold dictDel
        rw [if_pos hp]
      rw [h1]
      have h2 : containsKey (dictErase b "password") "salt" = false :=
        containsKey_dictErase_false b "password" "salt" h
      show dictDel (dictErase b "password") "salt" = Except.error (PyErr.keyError "salt")
      unfold dictDel
      rw [h2]
      simp
  | false =>
    refine ⟨"password", ?_⟩
    have h1 : dictDel b "password" = Except.error (PyErr.keyError "password") := by
      unfold dictDel
      rw [hp]
      simp
    rw [h1]

/-- C10: for every schema with unique logical keys that declares a
`password` field, a safe write projection (`_clean_keys` with
`safe := true`) raises `KeyError` whenever the attribute value read for
`password` is falsy or absent, or the one read for `salt` is falsy or
absent (in particular when `salt` is not even in the schema) — because the
truthiness filter omitted the key that the safe branch unconditionally
deletes.  The side conditions keep the timestamp stamping from masking the
failure: stamped columns are not named `password` or `salt`, and a
`modified` field is accompanied by `created` (otherwise the earlier
`NameError` fires first). -/
theorem claim_C10 (inst : Instance) (s : Schema) (pwcol : String) (dbop : Bool) (now : String)
    (hs : inst.schema = some s)
    (hn : keysNodup s)
    (hpw : alistGet "password" s = some pwcol)
    (hcr : ∀ c, alistGet "created" s = some c → c ≠ "password" ∧ c ≠ "salt")
    (hmo : ∀ m, alistGet "modified" s = some m → m ≠ "password" ∧ m ≠ "salt")
    (hstamp : (alistGet "modified" s).isSome = true → (alistGet "created" s).isSome = true)
    (hval : pyTruthy (getattrD inst pwcol Value.vNone) = false
        ∨ ∀ scol, alistGet "salt" s = some scol →
            pyTruthy (getattrD inst scol Value.vNone) = false) :
    ∃ j, _clean_keys inst dbop true now = Except.error (PyErr.keyError j) := by
  have hpwmem : containsKey s "password" = true := by
    rw [containsKey_eq_isSome, hpw]
    rfl
  rw [clean_keys_stages inst s dbop true now hs]
  obtain ⟨b, hb⟩ := stampStep_ok s now (pkeyStep inst.primary_key dbop (cleanBase inst s)) hstamp
  rw [hb]
  apply safeStep_keyerror s b hpwmem
  rcases hval with hval | hval
  · left
    apply stampStep_contains_false s now _ b "password" hb ?_
      (fun c hc => (hcr c hc).1) (fun m hm => (hmo m hm).1)
    apply pkeyStep_contains_false
    rw [cleanBase_eq_schemaFold]
    apply schemaFold_not_contains _ s [] "password" ?_ rfl
    intro p hp hpk
    have hp2 : p.2 = pwcol := snd_eq_of_nodup s "password" pwcol hn hpw p hp hpk
    simp [gClean, hp2, hval]
  · right
    apply stampStep_contains_false s now _ b "salt" hb ?_
      (fun c hc => (hcr c hc).2) (fun m hm => (hmo m hm).2)
    apply pkeyStep_contains_false
    rw [cleanBase_eq_schemaFold]
    apply schemaFold_not_contains _ s [] "salt" ?_ rfl
    intro p hp hpk
    cases hsv : alistGet "salt" s with
    | none => exact absurd hpk (no_key_of_alistGet_none s "salt" hsv p hp)
    | some scol =>
      have hp2 : p.2 = scol := snd_eq_of_nodup s "salt" scol hn hsv p hp hpk
      simp [gClean, hp2, hval scol hsv]

/-- The schema of the C10 witness: `password` and `salt` declared. -/
def schemaW10 : Schema := [("id", "id"), ("password", "password"), ("salt", "salt")]

/-- The instance of the C10 witness: no attribute ever set, so the
`password` read is absent/falsy. -/
def instW10 : Instance :=
  { primary_key := some "id", schema := some schemaW10, table := some "users",
    obj_id := Value.vNone, raw_data := none, attrs := [] }

theorem claim_C10_witness :
    instW10.schema = some schemaW10
    ∧ keysNodup schemaW10
    ∧ alistGet "password" schemaW10 = some "password"
    ∧ pyTruthy (getattrD instW10 "password" Value.vNone) = false
    ∧ ∃ j, _clean_keys instW10 true true "2014-06-01 10:00:00"
        = Except.error (PyErr.keyError j) :=
  ⟨rfl, by decide, rfl, rfl,
    claim_C10 instW10 schemaW10 "password" true "2014-06-01 10:00:00" rfl (by decide) rfl
      (fun c hc => by cases hc) (fun m hm => by cases hm) (fun h => by cases h)
      (Or.inl rfl)⟩

/-- C4: for every instance with no identifier (a falsy primary-key
attribute), a successful insert returns the gateway-returned identifier,
assigns it to the primary-key attribute, and — provided the gateway
identifier is truthy, as real row identifiers are — a subsequent insert on
the resulting instance is a no-op: it returns the falsy `False`, performs no
transaction and no gateway insert call (empty trace), and leaves the
instance unchanged.  The `hstamp` hypothesis excludes schemas whose
projection raises `NameError` (a `modified` field without `created`), in
which case no gateway call happens at all. -/
theorem claim_C4 (inst : Instance) (pk : String) (s : Schema) (now now2 : String)
    (idv : Value) (gw2 : Except PyErr Value)
    (hpk : inst.primary_key = some pk)
    (hs : inst.schema = some s)
    (hid : pyTruthy (getattrD inst pk Value.vNone) = false)
    (hstamp : (alistGet "modified" s).isSome = true → (alistGet "created" s).isSome = true)
    (hidv : pyTruthy idv = true) :
    ∃ attrs,
      _clean_keys inst true false now = Except.ok attrs
      ∧ insert inst now (Except.ok idv)
          = (Except.ok idv, [TxEvent.begin, TxEvent.insertCall attrs, TxEvent.commit],
              setattrI inst pk idv)
      ∧ getattrD (setattrI inst pk idv) pk Value.vNone = idv
      ∧ insert (setattrI inst pk idv) now2 gw2
          = (Except.ok (Value.vBool false), [], setattrI inst pk idv) := by
  obtain ⟨attrs, ha⟩ := clean_keys_ok inst s true now hs hstamp
  refine ⟨attrs, ha, ?_, getattrD_setattrI_self inst pk idv Value.vNone, ?_⟩
  · unfold insert
    rw [hpk]
    dsimp only
    rw [hid, ha]
    simp
  · unfold insert
    have hpk2 : (setattrI inst pk idv).primary_key = some pk := hpk
    rw [hpk2]
    dsimp only
    rw [getattrD_setattrI_self inst pk idv Value.vNone, hidv]
    simp

/-- C5: for every insert in which the storage gateway's insert call raises a
failure, the transaction trace is begin, the failed insert call, then
rollback — never a commit, so no partial row is committed — the original
failure is re-raised unchanged, and the instance is left unmodified. -/
theorem claim_C5 (inst : Instance) (pk : String) (s : Schema) (now : String) (e : PyErr)
    (hpk : inst.primary_key = some pk)
    (hs : inst.schema = some s)
    (hid : pyTruthy (getattrD inst pk Value.vNone) = false)
    (hstamp : (alistGet "modified" s).isSome = true → (alistGet "created" s).isSome = true) :
    ∃ attrs,
      _clean_keys inst true false now = Except.ok attrs
      ∧ insert inst now (Except.error e)
          = (Except.error e, [TxEvent.begin, TxEvent.insertCall attrs, TxEvent.rollback],
              inst) := by
  obtain ⟨attrs, ha⟩ := clean_keys_ok inst s true now hs hstamp
  refine ⟨attrs, ha, ?_⟩
  unfold insert
  rw [hpk]
  dsimp only
  rw [hid, ha]
  simp

/-- The schema of the insert witnesses. -/
def schemaW4 : Schema := [("id", "id"), ("name", "name"), ("created", "created_at")]

/-- The instance of the insert witnesses: never persisted, `name` set. -/
def instW4 : Instance :=
  { primary_key := some "id", schema := some schemaW4, table := some "users",
    obj_id := Value.vNone, raw_data := none, attrs := [("name", Value.vStr "Ada")] }

theorem claim_C4_witness :
    instW4.primary_key = some "id"
    ∧ instW4.schema = some schemaW4
    ∧ pyTruthy (getattrD instW4 "id" Value.vNone) = false
    ∧ pyTruthy (Value.vInt 7) = true
    ∧ ∃ attrs,
        _clean_keys instW4 true false "2014-06-01 10:00:00" = Except.ok attrs
        ∧ insert instW4 "2014-06-01 10:00:00" (Except.ok (Value.vInt 7))
            = (Except.ok (Value.vInt 7),
                [TxEvent.begin, TxEvent.insertCall attrs, TxEvent.commit],
                setattrI instW4 "id" (Value.vInt 7))
        ∧ getattrD (setattrI instW4 "id" (Value.vInt 7)) "id" Value.vNone = Value.vInt 7
        ∧ insert (setattrI instW4 "id" (Value.vInt 7)) "2014-06-02 10:00:00"
              (Except.ok (Value.vInt 99))
            = (Except.ok (Value.vBool false), [], setattrI instW4 "id" (Value.vInt 7)) :=
  ⟨rfl, rfl, rfl, by decide,
    claim_C4 instW4 "id" schemaW4 "2014-06-01 10:00:00" "2014-06-02 10:00:00"
      (Value.vInt 7) (Except.ok (Value.vInt 99)) rfl rfl rfl (fun h => by cases h)
      (by decide)⟩

theorem claim_C5_witness :
    instW4.primary_key = some "id"
    ∧ instW4.schema = some schemaW4
    ∧ pyTruthy (getattrD instW4 "id" Value.vNone) = false
    ∧ ∃ attrs,
        _clean_keys instW4 true false "2014-06-01 10:00:00" = Except.ok attrs
        ∧ insert instW4 "2014-06-01 10:00:00"
              (Except.error (PyErr.gatewayError "disk full"))
            = (Except.error (PyErr.gatewayError "disk full"),
                [TxEvent.begin, TxEvent.insertCall attrs, TxEvent.rollback], instW4) :=
  ⟨rfl, rfl, rfl,
    claim_C5 instW4 "id" schemaW4 "2014-06-01 10:00:00" (PyErr.gatewayError "disk full")
      rfl rfl rfl (fun h => by cases h)⟩

/-- The instance of the C3 counterexample and witness: persisted row with
identifier 7. -/
def instW3 : Instance :=
  { primary_key := some "id", schema := some [("id", "id"), ("name", "name")],
    table := some "users", obj_id := Value.vNone, raw_data := none,
    attrs := [("id", Value.vInt 7), ("name", Value.vStr "Ada")] }

/-- C3 counterexample: on an instance whose identifier is the integer 7, a
successful update (gateway reports one row updated) returns the string
`"id"` — the primary-key field name — which is not the instance's
identifier.  This falsifies the claim that `update` returns the instance's
identifier on success. -/
theorem claim_C3_counterexample :
    (update instW3 "2014-06-01 10:00:00" (Except.ok 1)).1 = Except.ok (Value.vStr "id")
    ∧ getattrD instW3 "id" Value.vNone = Value.vInt 7
    ∧ Except.ok (Value.vStr "id") ≠ (Except.ok (Value.vInt 7) : Except PyErr Value) := by
  refine ⟨by decide, by decide, by decide⟩

/-- C3 amended: for every instance that has an identifier (truthy
primary-key attribute), a call to `update` that succeeds (the gateway
reports a nonzero count of matching rows updated) returns the primary-key
field name (a truthy string) — not the identifier value — and returns the
empty result `None` if the gateway reports no matching row updated.  The
`hstamp` hypothesis excludes schemas whose write projection raises
`NameError` before the gateway is consulted. -/
theorem claim_C3_amended (inst : Instance) (pk : String) (s : Schema) (now : String) (n : Nat)
    (hpk : inst.primary_key = some pk)
    (hs : inst.schema = some s)
    (hid : pyTruthy (getattrD inst pk Value.vNone) = true)
    (hstamp : (alistGet "modified" s).isSome = true → (alistGet "created" s).isSome = true) :
    (n ≠ 0 → (update inst now (Except.ok n)).1 = Except.ok (Value.vStr pk))
    ∧ (n = 0 → (update inst now (Except.ok n)).1 = Except.ok Value.vNone)
    ∧ (pk ≠ "" → pyTruthy (Value.vStr pk) = true) := by
  obtain ⟨attrs, ha⟩ := clean_keys_ok inst s true now hs hstamp
  refine ⟨?_, ?_, ?_⟩
  · intro hn
    have hnb : (n != 0) = true := by simpa using hn
    unfold update
    rw [hpk]
    dsimp only
    rw [hid, ha]
    simp [hnb]
  · intro hn
    subst hn
    unfold update
    rw [hpk]
    dsimp only
    rw [hid, ha]
    simp
  · intro hne
    simpa [pyTruthy] using hne

theorem claim_C3_witness :
    instW3.primary_key = some "id"
    ∧ instW3.schema = some [("id", "id"), ("name", "name")]
    ∧ pyTruthy (getattrD instW3 "id" Value.vNone) = true
    ∧ ((1 ≠ 0 → (update instW3 "2014-06-01 10:00:00" (Except.ok 1)).1
          = Except.ok (Value.vStr "id"))
      ∧ (1 = 0 → (update instW3 "2014-06-01 10:00:00" (Except.ok 1)).1
          = Except.ok Value.vNone)
      ∧ ("id" ≠ "" → pyTruthy (Value.vStr "id") = true)) :=
  ⟨rfl, rfl, rfl,
    claim_C3_amended instW3 "id" [("id", "id"), ("name", "name")] "2014-06-01 10:00:00" 1
      rfl rfl rfl (fun h => by cases h)⟩

/-- Class configuration of the C1 counterexample: one-field schema, empty
table. -/
def cfgW1 : Config := { SCHEMA := [("id", "id")], PRIMARY_KEY := "id", TABLE := "users" }

/-- An empty database: no table has any row. -/
def dbEmpty : DB := fun _ => []

/-- C1 counterexample: constructing a mapper instance by the identifier 1
against a storage gateway holding no matching row raises a `TypeError` to
the caller (`_set_data` evaluates `db_key in None`) instead of surfacing an
empty/absent result.  This falsifies the claim that such a construction
never raises. -/
theorem claim_C1_counterexample :
    initInstance cfgW1 dbEmpty (Value.vInt 1) none (some "id") (some [("id", "id")])
      (some "users") = Except.error PyErr.typeError := by
  decide

/-- C1 amended: the single-row fetch itself (`_get_query`, hence `get` and
`exists`) surfaces a non-matching identifier as the absent result `None`
without raising; but constructing a Record Mapper instance by a truthy
identifier that matches no row raises a `TypeError` whenever the schema is
non-empty (only for an empty schema does construction complete, with no
attributes populated). -/
theorem claim_C1_amended (cfg : Config) (db : DB) (X : Value) (pko : Option String)
    (tbl : Option String) (s : Schema)
    (hX : pyTruthy X = true)
    (hmiss : dbWhere db cfg.TABLE [(cfg.PRIMARY_KEY, X)] = []) :
    _get_query cfg db X = none
    ∧ (s ≠ [] →
        initInstance cfg db X none pko (some s) tbl = Except.error PyErr.typeError)
    ∧ (s = [] →
        initInstance cfg db X none pko (some s) tbl
          = Except.ok { primary_key := pko, schema := some s, table := tbl,
                        obj_id := X, raw_data := none, attrs := [] }) := by
  have hq : _get_query cfg db X = none := by
    unfold _get_query
    rw [hmiss]
  refine ⟨hq, ?_, ?_⟩
  · intro hne
    cases s with
    | nil => exact absurd rfl hne
    | cons p t =>
      simp [initInstance, _construct_obj, hX, _construct_obj_from_id, _set_data, hq]
  · intro hnil
    subst hnil
    simp [initInstance, _construct_obj, hX, _construct_obj_from_id, _set_data, hq]

theorem claim_C1_witness :
    pyTruthy (Value.vInt 1) = true
    ∧ dbWhere dbEmpty cfgW1.TABLE [(cfgW1.PRIMARY_KEY, Value.vInt 1)] = []
    ∧ (_get_query cfgW1 dbEmpty (Value.vInt 1) = none
      ∧ ([("id", "id")] ≠ ([] : Schema) →
          initInstance cfgW1 dbEmpty (Value.vInt 1) none (some "id") (some [("id", "id")])
            (some "users") = Except.error PyErr.typeError)
      ∧ ([("id", "id")] = ([] : Schema) →
          initInstance cfgW1 dbEmpty (Value.vInt 1) none (some "id") (some [("id", "id")])
            (some "users")
            = Except.ok { primary_key := some "id", schema := some [("id", "id")],
                          table := some "users", obj_id := Value.vInt 1,
                          raw_data := none, attrs := [] })) :=
  ⟨by decide, by decide,
    claim_C1_amended cfgW1 dbEmpty (Value.vInt 1) (some "id") (some "users") [("id", "id")]
      (by decide) (by decide)⟩

/-- C7: for every schema attribute and value matching no stored row, the
class-level `get_by` returns the non-raising empty result `Except.ok none`,
and `exists` on a non-matching identifier returns the absent result `none`
(it is a total function of the gateway result, so it cannot raise). -/
theorem claim_C7 (cfg : Config) (db : DB) (attr : String) (value : Value) (col : String)
    (X : Value)
    (hcol : alistGet attr cfg.SCHEMA = some col)
    (hmiss : dbWhere db cfg.TABLE [(col, value)] = [])
    (hmiss2 : dbWhere db cfg.TABLE [(cfg.PRIMARY_KEY, X)] = []) :
    get_by cfg db attr value = Except.ok none ∧ exists' cfg db X = none := by
  constructor
  · unfold get_by
    rw [hcol]
    dsimp only
    rw [hmiss]
  · unfold exists' get _get_query
    rw [hmiss2]

/-- Class configuration of the C7 witness: two-field schema, one stored
row. -/
def cfgW7 : Config :=
  { SCHEMA := [("id", "id"), ("name", "name")], PRIMARY_KEY := "id", TABLE := "users" }

/-- A one-row database for the C7 and C8 witnesses. -/
def dbW7 : DB := fun _ => [[("id", Value.vInt 1), ("name", Value.vStr "Bob")]]

theorem claim_C7_witness :
    alistGet "name" cfgW7.SCHEMA = some "name"
    ∧ dbWhere dbW7 cfgW7.TABLE [("name", Value.vStr "nonexistent")] = []
    ∧ dbWhere dbW7 cfgW7.TABLE [(cfgW7.PRIMARY_KEY, Value.vInt 5)] = []
    ∧ (get_by cfgW7 dbW7 "name" (Value.vStr "nonexistent") = Except.ok none
      ∧ exists' cfgW7 dbW7 (Value.vInt 5) = none) :=
  ⟨by decide, by decide, by decide,
    claim_C7 cfgW7 dbW7 "name" (Value.vStr "nonexistent") "name" (Value.vInt 5)
      (by decide) (by decide) (by decide)⟩

theorem dbWhere_head_pred (db : DB) (tbl : String) (kv : List (String × Value)) (r : Row)
    (rest : List Row) (h : dbWhere db tbl kv = r :: rest) :
    kv.all (fun p => alistGet p.1 r == some p.2) = true := by
  have hmem : r ∈ dbWhere db tbl kv := by
    rw [h]
    exact List.mem_cons_self r rest
  unfold dbWhere at hmem
  exact (List.mem_filter.mp hmem).2

/-- C8: for every truthy identifier `X` that matches a stored row `r`,
constructing an instance by identifier `X` and constructing an instance
from the raw row `r` independently fetched for `X` both succeed and yield
instances with identical dynamic attribute dicts — in particular identical
attribute values for every schema-declared field. -/
theorem claim_C8 (cfg : Config) (db : DB) (X : Value) (r : Row) (pk tbl : String)
    (s : Schema)
    (hX : pyTruthy X = true)
    (hr : _get_query cfg db X = some r) :
    ∃ i1 i2,
      initInstance cfg db X none (some pk) (some s) (some tbl) = Except.ok i1
      ∧ initInstance cfg db Value.vNone (some r) (some pk) (some s) (some tbl)
          = Except.ok i2
      ∧ i1.attrs = i2.attrs := by
  have hrne : r.isEmpty = false := by
    unfold _get_query at hr
    cases hw : dbWhere db cfg.TABLE [(cfg.PRIMARY_KEY, X)] with
    | nil =>
      rw [hw] at hr
      cases hr
    | cons r0 rest =>
      rw [hw] at hr
      cases hr
      have hpred := dbWhere_head_pred db cfg.TABLE [(cfg.PRIMARY_KEY, X)] r rest hw
      simp only [List.all_cons, List.all_nil, Bool.and_true, beq_iff_eq] at hpred
      cases r with
      | nil => simp [alistGet] at hpred
      | cons q u => rfl
  refine ⟨{ primary_key := some pk, schema := some s, table := some tbl, obj_id := X,
            raw_data := some r, attrs := setDataAttrs s r [] },
          { primary_key := some pk, schema := some s, table := some tbl,
            obj_id := if containsKey r pk then (alistGet pk r).getD Value.vNone
              else Value.vNone,
            raw_data := some r, attrs := setDataAttrs s r [] }, ?_, ?_, rfl⟩
  · simp [initInstance, _construct_obj, hX, _construct_obj_from_id, _set_data, hr]
  · simp [initInstance, _construct_obj, pyTruthy, rawTruthy, hrne,
      _construct_obj_from_data, _set_data]

theorem claim_C8_witness :
    pyTruthy (Value.vInt 1) = true
    ∧ _get_query cfgW7 dbW7 (Value.vInt 1)
        = some [("id", Value.vInt 1), ("name", Value.vStr "Bob")]
    ∧ ∃ i1 i2,
        initInstance cfgW7 dbW7 (Value.vInt 1) none (some "id") (some cfgW7.SCHEMA)
          (some "users") = Except.ok i1
        ∧ initInstance cfgW7 dbW7 Value.vNone
            (some [("id", Value.vInt 1), ("name", Value.vStr "Bob")]) (some "id")
            (some cfgW7.SCHEMA) (some "users") = Except.ok i2
        ∧ i1.attrs = i2.attrs :=
  ⟨by decide, by decide,
    claim_C8 cfgW7 dbW7 (Value.vInt 1) [("id", Value.vInt 1), ("name", Value.vStr "Bob")]
      "id" "users" cfgW7.SCHEMA (by decide) (by decide)⟩

theorem containsKey_map_convert (d : Dict) (k : String) :
    containsKey (d.map (fun p => convert_attr2json p.1 p.2)) k = containsKey d k := by
  induction d with
  | nil => rfl
  | cons p t ih =>
    have hfst : (convert_attr2json p.1 p.2).1 = p.1 := by
      cases p.2 <;> rfl
    show (if (convert_attr2json p.1 p.2).1 = k then true
          else containsKey (t.map (fun p => convert_attr2json p.1 p.2)) k)
        = (if p.1 = k then true else containsKey t k)
    rw [hfst, ih]

/-- C6: for every schema that includes `password` and `salt` fields, the
safe serialization variant (`_json_serializable` with its default
`safe=True`) never contains those keys — here shown even with truthy
attribute values — while the default serialization variant
(`json_serializable`, built on `_clean_keys()` with `safe=False`) does
contain them when the corresponding attribute values are truthy. -/
theorem claim_C6 (inst : Instance) (s : Schema) (pwcol scol : String) (now : String)
    (hs : inst.schema = some s)
    (hpw : alistGet "password" s = some pwcol)
    (hsalt : alistGet "salt" s = some scol)
    (hstamp : (alistGet "modified" s).isSome = true → (alistGet "created" s).isSome = true)
    (hpv : pyTruthy (getattrD inst pwcol Value.vNone) = true)
    (hsv : pyTruthy (getattrD inst scol Value.vNone) = true) :
    (∃ d, _json_serializable inst true = Except.ok d
        ∧ containsKey d "password" = false ∧ containsKey d "salt" = false)
    ∧ (∃ d, json_serializable inst now = Except.ok d
        ∧ containsKey d "password" = true ∧ containsKey d "salt" = true) := by
  constructor
  · refine ⟨schemaFold (gJson inst true) s [],
      json_serializable_priv_eq inst s true hs, ?_, ?_⟩
    · apply schemaFold_not_contains _ s [] "password" ?_ rfl
      intro p hp hpk
      simp [gJson, hpk]
    · apply schemaFold_not_contains _ s [] "salt" ?_ rfl
      intro p hp hpk
      simp [gJson, hpk]
  · have hpm : containsKey (cleanBase inst s) "password" = true := by
      rw [cleanBase_eq_schemaFold]
      exact schemaFold_contains_of (gClean inst) s [] "password" pwcol
        (getattrD inst pwcol Value.vNone) hpw (by simp [gClean, hpv])
    have hsm : containsKey (cleanBase inst s) "salt" = true := by
      rw [cleanBase_eq_schemaFold]
      exact schemaFold_contains_of (gClean inst) s [] "salt" scol
        (getattrD inst scol Value.vNone) hsalt (by simp [gClean, hsv])
    obtain ⟨b, hb⟩ := stampStep_ok s now (cleanBase inst s) hstamp
    have hck : _clean_keys inst false false now = Except.ok b := by
      rw [clean_keys_stages inst s false false now hs, pkeyStep_false, hb, safeStep_false]
    refine ⟨b.map (fun p => convert_attr2json p.1 p.2), ?_, ?_, ?_⟩
    · unfold json_serializable
      rw [hck]
    · rw [containsKey_map_convert]
      exact stampStep_contains_true s now _ b "password" hb hpm
    · rw [containsKey_map_convert]
      exact stampStep_contains_true s now _ b "salt" hb hsm

/-- The instance of the C6 witness: truthy password and salt values, stored
under the column names the serializers read. -/
def instW6 : Instance :=
  { primary_key := some "id", schema := some schemaW10, table := some "users",
    obj_id := Value.vNone, raw_data := none,
    attrs := [("password", Value.vStr "secret"), ("salt", Value.vStr "pepper")] }

theorem claim_C6_witness :
    instW6.schema = some schemaW10
    ∧ alistGet "password" schemaW10 = some "password"
    ∧ alistGet "salt" schemaW10 = some "salt"
    ∧ pyTruthy (getattrD instW6 "password" Value.vNone) = true
    ∧ pyTruthy (getattrD instW6 "salt" Value.vNone) = true
    ∧ ((∃ d, _json_serializable instW6 true = Except.ok d
          ∧ containsKey d "password" = false ∧ containsKey d "salt" = false)
      ∧ (∃ d, json_serializable instW6 "2014-06-01 10:00:00" = Except.ok d
          ∧ containsKey d "password" = true ∧ containsKey d "salt" = true)) :=
  ⟨rfl, rfl, rfl, by decide, by decide,
    claim_C6 instW6 schemaW10 "password" "salt" "2014-06-01 10:00:00" rfl rfl rfl
      (fun h => by cases h) (by decide) (by decide)⟩

/-- C9: for every schema field whose logical name `k` differs from its
mapped storage column `col` (schema keys unique, as Python dicts are), the
write projection and the serialization read the attribute named by the
storage column, so their output at the logical key `k` is unchanged by any
assignment to the attribute named `k`; while `_set_data` (used by all three
construction paths when a row is present) sets the attribute named by the
logical field name `k` from the row's `col` column.  Hence a value assigned
under the logical name never appears in the projection or serialization
output for such a field. -/
theorem claim_C9 (inst : Instance) (s : Schema) (k col : String) (v : Value)
    (dbop saf : Bool) (now : String)
    (hs : inst.schema = some s) (hn : keysNodup s)
    (hk : alistGet k s = some col) (hne : k ≠ col) :
    exLookup k (_clean_keys (setattrI inst k v) dbop false now)
      = exLookup k (_clean_keys inst dbop false now)
    ∧ exLookup k (_json_serializable (setattrI inst k v) saf)
      = exLookup k (_json_serializable inst saf)
    ∧ (∀ r : Row, containsKey r col = true →
        getattrD { inst with attrs := setDataAttrs s r inst.attrs } k Value.vNone
          = (alistGet col r).getD Value.vNone) := by
  have hs' : (setattrI inst k v).schema = some s := hs
  have hcolk : getattrD (setattrI inst k v) col Value.vNone
      = getattrD inst col Value.vNone :=
    getattrD_setattrI_ne inst k col v Value.vNone (fun hh => hne hh.symm)
  have hgC : ∀ p ∈ s, p.1 = k → gClean (setattrI inst k v) p = gClean inst p := by
    intro p hp hpk
    have hp2 : p.2 = col := snd_eq_of_nodup s k col hn hk p hp hpk
    simp [gClean, hp2, hcolk]
  have hbase : alistGet k (cleanBase (setattrI inst k v) s)
      = alistGet k (cleanBase inst s) := by
    rw [cleanBase_eq_schemaFold, cleanBase_eq_schemaFold]
    exact schemaFold_lookup_congr _ _ s [] [] k hgC rfl
  have hnodA : keysNodup (cleanBase (setattrI inst k v) s) := by
    rw [cleanBase_eq_schemaFold]
    exact keysNodup_schemaFold _ s [] (by simp [keysNodup])
  have hnodB : keysNodup (cleanBase inst s) := by
    rw [cleanBase_eq_schemaFold]
    exact keysNodup_schemaFold _ s [] (by simp [keysNodup])
  refine ⟨?_, ?_, ?_⟩
  · rw [clean_keys_stages (setattrI inst k v) s dbop false now hs',
        clean_keys_stages inst s dbop false now hs, safeStep_false, safeStep_false]
    apply stampStep_exLookup_congr
    exact pkeyStep_lookup_congr inst.primary_key dbop _ _ k hbase hnodA hnodB
  · rw [json_serializable_priv_eq (setattrI inst k v) s saf hs',
        json_serializable_priv_eq inst s saf hs]
    show alistGet k (schemaFold (gJson (setattrI inst k v) saf) s [])
        = alistGet k (schemaFold (gJson inst saf) s [])
    apply schemaFold_lookup_congr _ _ s [] [] k ?_ rfl
    intro p hp hpk
    have hp2 : p.2 = col := snd_eq_of_nodup s k col hn hk p hp hpk
    simp [gJson, hp2, hcolk]
  · intro r hr
    have hgv : gSetData r (k, col) = some ((alistGet col r).getD Value.vNone) := by
      simp [gSetData, hr]
    unfold getattrD
    dsimp only
    rw [setDataAttrs_eq_schemaFold,
        schemaFold_lookup_value (gSetData r) s inst.attrs k col _ hn hk hgv]

/-- The schema of the C9 witness: logical `name` maps to column
`cust_name`. -/
def schemaW9 : Schema := [("name", "cust_name"), ("id", "id")]

/-- The instance of the C9 witness: the column-named attribute holds
`Bob`. -/
def instW9 : Instance :=
  { primary_key := some "id", schema := some schemaW9, table := some "customers",
    obj_id := Value.vNone, raw_data := none,
    attrs := [("cust_name", Value.vStr "Bob"), ("id", Value.vInt 3)] }

theorem claim_C9_witness :
    instW9.schema = some schemaW9
    ∧ keysNodup schemaW9
    ∧ alistGet "name" schemaW9 = some "cust_name"
    ∧ "name" ≠ "cust_name"
    ∧ (exLookup "name"
          (_clean_keys (setattrI instW9 "name" (Value.vStr "evil")) true false "TS")
        = exLookup "name" (_clean_keys instW9 true false "TS")
      ∧ exLookup "name"
          (_json_serializable (setattrI instW9 "name" (Value.vStr "evil")) true)
        = exLookup "name" (_json_serializable instW9 true)
      ∧ ∀ r : Row, containsKey r "cust_name" = true →
          getattrD { instW9 with attrs := setDataAttrs schemaW9 r instW9.attrs } "name"
            Value.vNone = (alistGet "cust_name" r).getD Value.vNone) :=
  ⟨rfl, by decide, rfl, by decide,
    claim_C9 instW9 schemaW9 "name" "cust_name" (Value.vStr "evil") true true "TS"
      rfl (by decide) rfl (by decide)⟩

end TemplateAPI
